import Mathlib

/-!
Verification development for the alphalens utilities module
(alphalens/utils.py).

The module is shallowly embedded over exact rational arithmetic:

* a price table is a partial map from (date index, asset index) to a
  rational price, with `none` standing for a missing value (NaN);
* `compute_forward_returns` is translated step by step: pandas
  `pct_change(day)` pad-fills the frame and divides by the frame shifted
  by `day`, `shift(-day)` moves the result back, the optional z-score
  mask nulls outliers, `stack()` drops missing entries, and the column
  assignment re-aligns the stacked series on the full
  dates-times-assets product index;
* `demean_forward_returns` groups rows by date (or date and sector) and
  subtracts the per-group, per-column mean of the defined entries;
* `get_clean_factor_and_forward_returns` left-merges the factor with the
  forward returns, validates and broadcasts the sector mapping, maps
  sector codes through the sector-name mapping, left-merges the sector
  labels, drops incomplete rows and splits the factor back out.

Floating-point NaN propagation is modelled with `Option`; the z-score
comparison `abs (delta - mean) > z * std` is rendered over the
rationals by comparing squares, `(delta - mean) ^ 2 > z ^ 2 * var`,
which is equivalent for a nonnegative threshold since both sides of the
original comparison are nonnegative and `std = sqrt var`; the bridge to
the square-root formulation is proved over the reals.
-/

namespace Alphalens

/-- Price table: first argument the date position, second the asset
position; `none` models a missing (NaN) price. Only positions below the
table dimensions are meaningful. -/
abbrev Price := Nat → Nat → Option ℚ

/-- Forward fill along dates for one asset column, as pandas
`fillna(method=pad)` does inside `pct_change` before differencing. -/
def ffill (P : Price) (a : Nat) : Nat → Option ℚ
  | 0 => P 0 a
  | t + 1 =>
    match P (t + 1) a with
    | some v => some v
    | none => ffill P a t

/-- Value at row `t`, asset `a` of `prices.pct_change(day).shift(-day)`
for a table with `T` dates: the percent change of the pad-filled price
from date `t` to date `t + day`, and `none` once `t + day` falls past
the last date. -/
def rawDelta (T : Nat) (P : Price) (day t a : Nat) : Option ℚ :=
  if t + day < T then
    match ffill P a t, ffill P a (t + day) with
    | some p0, some p1 => some (p1 / p0 - 1)
    | _, _ => none
  else none

/-- Defined entries of one asset column of the shifted percent-change
frame, in date order; pandas `mean()` and `std()` skip NaN, so the
column statistics are taken over this list. -/
def colVals (T : Nat) (P : Price) (day a : Nat) : List ℚ :=
  (List.range T).filterMap (fun t => rawDelta T P day t a)

/-- NaN-skipping column mean of the shifted percent-change frame. -/
def colMean (T : Nat) (P : Price) (day a : Nat) : ℚ :=
  (colVals T P day a).sum / (colVals T P day a).length

/-- NaN-skipping column sample variance (pandas `std` squared, with
denominator `n - 1`). -/
def colVar (T : Nat) (P : Price) (day a : Nat) : ℚ :=
  ((colVals T P day a).map (fun x => (x - colMean T P day a) ^ 2)).sum /
    (((colVals T P day a).length : ℚ) - 1)

/-- The shifted percent-change entry after the optional z-score filter
`delta[abs(delta - delta.mean()) > filter_zscore * delta.std()] = nan`.
The float comparison `abs (v - m) > z * std` is rendered by comparing
squares, which agrees with it for `0 ≤ z` since `std = sqrt var`; with
at most one defined entry the pandas standard deviation is NaN, the
comparison is false, and nothing is filtered. -/
def filteredDelta (T : Nat) (P : Price) (day : Nat) (z : Option ℚ) (t a : Nat) :
    Option ℚ :=
  match rawDelta T P day t a with
  | none => none
  | some v =>
    match z with
    | none => some v
    | some zv =>
      if (colVals T P day a).length ≤ 1 then some v
      else if zv ^ 2 * colVar T P day a < (v - colMean T P day a) ^ 2 then none
      else some v

/-- The stacked series `delta.stack()`: for each date, in asset order,
the defined entries of the filtered shifted percent-change frame, keyed
by the (date, asset) pair. Stacking drops missing entries. -/
def stackDelta (T N : Nat) (P : Price) (day : Nat) (z : Option ℚ) :
    List ((Nat × Nat) × ℚ) :=
  (List.range T).flatMap (fun t =>
    (List.range N).filterMap (fun a =>
      (filteredDelta T P day z t a).map (fun v => ((t, a), v))))

/-- Full product index `MultiIndex.from_product([prices.index,
prices.columns])` of all (date, asset) pairs. -/
def productIndex (T N : Nat) : List (Nat × Nat) :=
  (List.range T).flatMap (fun t => (List.range N).map (fun a => (t, a)))

/-- Column value of the forward-returns table: the assignment
`forward_returns[day] = delta.stack() / day` aligns the stacked series
on the product index, leaving `none` where the key is absent from the
stacked series. -/
def fwdVal (T N : Nat) (P : Price) (z : Option ℚ) (day : Nat) (k : Nat × Nat) :
    Option ℚ :=
  ((stackDelta T N P day z).find? (fun e => e.1 == k)).map
    (fun e => e.2 / (day : ℚ))

/-- Forward-returns table: the index rows, the index level names, the
holding-period columns and the cell values. -/
structure FwdTable where
  index : List (Nat × Nat)
  names : List String
  days : List Nat
  val : Nat → Nat × Nat → Option ℚ

/-- Translation of `compute_forward_returns(prices, days,
filter_zscore)`: a table on the full (date, asset) product index with
one column per requested holding period. -/
def compute_forward_returns (T N : Nat) (P : Price) (days : List Nat)
    (filter_zscore : Option ℚ) : FwdTable :=
  { index := productIndex T N
    names := ["date", "asset"]
    days := days
    val := fun day k => fwdVal T N P filter_zscore day k }

/-- Row key of a forward-returns table fed to
`demean_forward_returns`: date, asset and sector index levels (the
sector level carries a dummy value when the table has none, and the
grouper then ignores it). -/
abbrev RKey := Nat × Nat × Nat

/-- grouper: `[date, sector]` when `by_sector` else `[date]`. -/
def groupKey (by_sector : Bool) (k : RKey) : Nat × Option Nat :=
  (k.1, if by_sector then some k.2.2 else none)

/-- Defined entries of column `day` inside one groupby group (pandas
`mean` skips NaN). -/
def groupVals (rows : List (RKey × (Nat → Option ℚ))) (by_sector : Bool)
    (g : Nat × Option Nat) (day : Nat) : List ℚ :=
  (rows.filter (fun p => groupKey by_sector p.1 == g)).filterMap
    (fun p => p.2 day)

/-- NaN-skipping mean of column `day` inside one group. -/
def groupMean (rows : List (RKey × (Nat → Option ℚ))) (by_sector : Bool)
    (g : Nat × Option Nat) (day : Nat) : ℚ :=
  (groupVals rows by_sector g day).sum / (groupVals rows by_sector g day).length

/-- Translation of the body of `lambda x: x - x.mean()` applied to the
group of a single row. -/
def demeanRow (rows : List (RKey × (Nat → Option ℚ))) (by_sector : Bool)
    (p : RKey × (Nat → Option ℚ)) : RKey × (Nat → Option ℚ) :=
  (p.1, fun day =>
    (p.2 day).map (fun v => v - groupMean rows by_sector (groupKey by_sector p.1) day))

/-- Translation of `demean_forward_returns(forward_returns, by_sector)`:
group by date (or date and sector) and subtract the per-group,
per-column NaN-skipping mean; missing entries stay missing. -/
def demean_forward_returns (rows : List (RKey × (Nat → Option ℚ)))
    (by_sector : Bool) : List (RKey × (Nat → Option ℚ)) :=
  rows.map (demeanRow rows by_sector)

/-- Row of the merged table built by
`get_clean_factor_and_forward_returns`: index levels date, asset and
(when sectors are supplied) sector, the factor column, and one
forward-returns cell per entry of `days`, in the order of `days`. -/
structure Row where
  date : Nat
  asset : Nat
  sector : Option Nat
  factor : Option ℚ
  fwd : List (Option ℚ)
deriving DecidableEq, Repr

/-- Sector argument: a static asset-to-code dictionary or a
time-varying series keyed by (date, asset). -/
inductive Sectors where
  | dict : List (Nat × Nat) → Sectors
  | series : List ((Nat × Nat) × Nat) → Sectors
deriving DecidableEq, Repr

/-- Errors raised by `get_clean_factor_and_forward_returns`: the two
KeyError validations, each carrying the offending keys it reports, and
the generic length-mismatch failure of rebuilding a sector series over
the factor index. -/
inductive CleanErr where
  | assetsNotInSectorMapping : List Nat → CleanErr
  | sectorsNotInSectorNames : List Nat → CleanErr
  | sectorLengthMismatch : CleanErr
deriving DecidableEq, Repr

/-- Assets appearing in the factor index
(`factor.index.get_level_values(asset)`). -/
def factorAssets (factor : List ((Nat × Nat) × Option ℚ)) : List Nat :=
  factor.map (fun p => p.1.2)

/-- Keys of an association list standing for a python dict. -/
def dictKeys (m : List (Nat × Nat)) : List Nat :=
  m.map Prod.fst

/-- The set difference `set(factor assets) - set(sectors.keys())`,
listed without repetition. -/
def missingAssets (factor : List ((Nat × Nat) × Option ℚ))
    (m : List (Nat × Nat)) : List Nat :=
  ((factorAssets factor).filter (fun a => !(dictKeys m).contains a)).dedup

/-- Broadcast of a static sector dict across the factor index:
`pd.Series(index=factor.index, data=ss[assets].values)`; validation has
ensured every asset is present, so the default value is never hit. -/
def broadcastDict (factor : List ((Nat × Nat) × Option ℚ))
    (m : List (Nat × Nat)) : List ((Nat × Nat) × Nat) :=
  factor.map (fun p => (p.1, (m.lookup p.1.2).getD 0))

/-- Values of a sector series (`sectors.values`). -/
def sectorValues (ser : List ((Nat × Nat) × Nat)) : List Nat :=
  ser.map (fun q => q.2)

/-- The set difference `set(sectors.values) - set(sector_names.keys())`,
listed without repetition. -/
def missingSectorCodes (ser : List ((Nat × Nat) × Nat))
    (ns : List (Nat × Nat)) : List Nat :=
  ((sectorValues ser).filter (fun s => !(dictKeys ns).contains s)).dedup

/-- Replacement of sector codes by display names:
`pd.Series(index=factor.index, data=sn[sectors.values].values)` pairs
the factor index positionally with the mapped values of the series. -/
def applySectorNames (factor : List ((Nat × Nat) × Option ℚ))
    (ser : List ((Nat × Nat) × Nat)) (ns : List (Nat × Nat)) :
    List ((Nat × Nat) × Nat) :=
  List.zipWith (fun p q => (p.1, (ns.lookup q.2).getD 0)) factor ser

/-- Validation and broadcast of the sector argument: a dict is checked
to cover every factor asset (raising a KeyError naming the uncovered
assets) and broadcast across the factor index; a series passes through
unchanged. -/
def resolveSectors (factor : List ((Nat × Nat) × Option ℚ)) (s : Sectors) :
    Except CleanErr (List ((Nat × Nat) × Nat)) :=
  match s with
  | .dict m =>
    if missingAssets factor m = [] then .ok (broadcastDict factor m)
    else .error (.assetsNotInSectorMapping (missingAssets factor m))
  | .series ser => .ok ser

/-- Validation and application of the sector-name mapping: when names
are supplied, the sector codes are checked to be covered (raising a
KeyError naming the uncovered codes) and replaced by their display
names over the factor index. -/
def resolveNames (factor : List ((Nat × Nat) × Option ℚ))
    (ser : List ((Nat × Nat) × Nat)) (sector_names : Option (List (Nat × Nat))) :
    Except CleanErr (List ((Nat × Nat) × Nat)) :=
  match sector_names with
  | none => .ok ser
  | some ns =>
    if missingSectorCodes ser ns = [] then
      if factor.length = ser.length then .ok (applySectorNames factor ser ns)
      else .error .sectorLengthMismatch
    else .error (.sectorsNotInSectorNames (missingSectorCodes ser ns))

/-- Left merge of the factor with the forward returns on the
(date, asset) index: the merged table keeps the factor index and looks
each key up in the forward-returns table, whose index is the full
product, so absent keys and missing cells alike yield `none`. -/
def mergeFactorFwd (T N : Nat) (P : Price) (z : Option ℚ) (days : List Nat)
    (factor : List ((Nat × Nat) × Option ℚ)) : List Row :=
  factor.map (fun p =>
    { date := p.1.1
      asset := p.1.2
      sector := none
      factor := p.2
      fwd := days.map (fun day => fwdVal T N P z day p.1) })

/-- Left merge of the sector series with the merged table followed by
`set_index(sector, append=True)`: the result keeps the sector index and
looks each key up in the merged table; keys absent from it get missing
factor and forward-returns cells. -/
def mergeSectors (merged : List Row) (ser : List ((Nat × Nat) × Nat))
    (days : List Nat) : List Row :=
  ser.map (fun q =>
    match merged.find? (fun r => (r.date, r.asset) == q.1) with
    | some r => { r with sector := some q.2 }
    | none =>
      { date := q.1.1
        asset := q.1.2
        sector := some q.2
        factor := none
        fwd := days.map (fun _ => none) })

/-- dropna predicate: a merged row survives when the factor cell and
every forward-returns cell are present. -/
def rowComplete (r : Row) : Bool :=
  r.factor.isSome && r.fwd.all Option.isSome

/-- Translation of `get_clean_factor_and_forward_returns(factor,
prices, sectors, days, filter_zscore, sector_names)`: merge factor and
forward returns, validate and attach sectors, drop incomplete rows.
The returned rows carry both outputs of the python function: the clean
factor column popped back out and the remaining forward-returns
columns, on the same index. -/
def get_clean_factor_and_forward_returns (T N : Nat) (P : Price)
    (factor : List ((Nat × Nat) × Option ℚ)) (sectors : Option Sectors)
    (days : List Nat) (filter_zscore : Option ℚ)
    (sector_names : Option (List (Nat × Nat))) : Except CleanErr (List Row) :=
  match sectors with
  | none => .ok ((mergeFactorFwd T N P filter_zscore days factor).filter rowComplete)
  | some s =>
    match resolveSectors factor s with
    | .error e => .error e
    | .ok ser =>
      match resolveNames factor ser sector_names with
      | .error e => .error e
      | .ok ser2 =>
        .ok ((mergeSectors (mergeFactorFwd T N P filter_zscore days factor)
          ser2 days).filter rowComplete)

/-- Metadata of a pandas Series object relevant here: its `name`
attribute and the names of its index levels. -/
structure SeriesMeta where
  name : Option String
  indexNames : Option (List String)
deriving DecidableEq, Repr

/-- Effect of the in-place statements `factor.name = "factor"` and
`factor.index = factor.index.set_names([date, asset])` on the metadata
of the factor object passed to `get_clean_factor_and_forward_returns`:
whatever the metadata was on entry, on exit it is overwritten. -/
def factorMetaAfterClean (_m : SeriesMeta) : SeriesMeta :=
  { name := some "factor", indexNames := some ["date", "asset"] }

/-- Abstract events of `get_clean_factor_and_forward_returns`, in the
order the python function performs them. -/
inductive Ev where
  | setFactorMeta
  | computeFwd
  | mergeFactorFwdEv
  | raiseAssets
  | broadcastDictEv
  | raiseSectorNames
  | applySectorNamesEv
  | setSectorMeta
  | mergeSectorsEv
  | setIndexSector
  | dropna
  | popFactor
deriving DecidableEq, Repr

/-- Events of the sector-name handling and of the tail of the function
once a sector series is in hand. -/
def namesEvents (factor : List ((Nat × Nat) × Option ℚ))
    (ser : List ((Nat × Nat) × Nat)) (sector_names : Option (List (Nat × Nat))) :
    List Ev :=
  match sector_names with
  | none =>
    [.setSectorMeta, .mergeSectorsEv, .setIndexSector, .dropna, .popFactor]
  | some ns =>
    if missingSectorCodes ser ns = [] then
      if factor.length = ser.length then
        [.applySectorNamesEv, .setSectorMeta, .mergeSectorsEv, .setIndexSector,
          .dropna, .popFactor]
      else [.applySectorNamesEv]
    else [.raiseSectorNames]

/-- Event trace of `get_clean_factor_and_forward_returns`: the factor
metadata is overwritten first, the forward returns are computed and
merged with the factor next, and only then is the sector mapping
validated; each raised KeyError is the last event of its trace. -/
def cleanEvents (factor : List ((Nat × Nat) × Option ℚ))
    (sectors : Option Sectors) (sector_names : Option (List (Nat × Nat))) :
    List Ev :=
  [.setFactorMeta, .computeFwd, .mergeFactorFwdEv] ++
    match sectors with
    | none => [.dropna, .popFactor]
    | some (.dict m) =>
      if missingAssets factor m = [] then
        .broadcastDictEv :: namesEvents factor (broadcastDict factor m) sector_names
      else [.raiseAssets]
    | some (.series ser) => namesEvents factor ser sector_names

/-- Example total price function over four dates and two assets, used
to instantiate the theorems on concrete data. -/
def exp0 : Nat → Nat → ℚ := fun t a =>
  if a = 0 then (if t = 0 then 1 else if t = 1 then 2 else if t = 2 then 4 else 8)
  else (if t = 0 then 2 else if t = 1 then 2 else if t = 2 then 1 else 4)

/-- Example price table with no missing values built on `exp0`. -/
def exP : Price := fun t a => some (exp0 t a)

/-- Example factor series over (date, asset) pairs. -/
def exFactor : List ((Nat × Nat) × Option ℚ) :=
  [((0, 0), some 5), ((0, 1), some 7), ((3, 0), some 9)]

/-- Example sector dict that misses asset 1. -/
def exDict : List (Nat × Nat) := [(0, 10)]

/-- Example sector dict covering both assets. -/
def exDict2 : List (Nat × Nat) := [(0, 10), (1, 20)]

/-- Example sector-name mapping that misses sector code 20. -/
def exNames : List (Nat × Nat) := [(10, 100)]

/-- Example forward-returns rows for the demeaning theorems. -/
def exRows : List (RKey × (Nat → Option ℚ)) :=
  [((0, 0, 0), fun _ => some 1), ((0, 1, 0), fun _ => some 3),
    ((1, 0, 0), fun _ => some 5)]

/-- Clean output rows on the example data without sectors. -/
def exCleanRows : List Row :=
  [{ date := 0, asset := 0, sector := none, factor := some 5, fwd := [some 1] },
    { date := 0, asset := 1, sector := none, factor := some 7, fwd := [some 0] }]

/-- First row of the example clean output. -/
def exCleanRow : Row :=
  { date := 0, asset := 0, sector := none, factor := some 5, fwd := [some 1] }

/-- Broadcast of `exDict2` across the example factor index. -/
def exSer : List ((Nat × Nat) × Nat) :=
  [((0, 0), 10), ((0, 1), 20), ((3, 0), 10)]

/-- Example time-varying sector series that covers only asset 0, while
the example factor also contains asset 1. -/
def exSerMissing : List ((Nat × Nat) × Nat) := [((0, 0), 10)]

/-- Clean output rows when `exSerMissing` is passed as a sector series:
the rows of the uncovered asset vanish through the left merge instead
of triggering a validation error. -/
def exSerRows : List Row :=
  [{ date := 0, asset := 0, sector := some 10, factor := some 5,
      fwd := [some 1] }]

theorem ffill_total (p : Nat → Nat → ℚ) (a : Nat) :
    ∀ t, ffill (fun i j => some (p i j)) a t = some (p t a) := by
  intro t
  induction t with
  | zero => rfl
  | succ t ih => simp [ffill]

theorem mem_stackDelta {T N : Nat} {P : Price} {day : Nat} {z : Option ℚ}
    {e : (Nat × Nat) × ℚ} :
    e ∈ stackDelta T N P day z ↔
      e.1.1 < T ∧ e.1.2 < N ∧ filteredDelta T P day z e.1.1 e.1.2 = some e.2 := by
  obtain ⟨⟨t, a⟩, v⟩ := e
  simp only [stackDelta, List.mem_flatMap, List.mem_filterMap, List.mem_range,
    Option.map_eq_some']
  constructor
  · rintro ⟨t', ht', a', ha', v', hv', h⟩
    obtain ⟨h1, h2⟩ := Prod.mk.injEq .. ▸ h
    obtain ⟨h11, h12⟩ := Prod.mk.injEq .. ▸ h1
    subst h11; subst h12; subst h2
    exact ⟨ht', ha', hv'⟩
  · rintro ⟨ht, ha, hf⟩
    exact ⟨t, ht, a, ha, v, hf, rfl⟩

theorem fwdVal_eq (T N : Nat) (P : Price) (z : Option ℚ) (day t a : Nat)
    (ht : t < T) (ha : a < N) :
    fwdVal T N P z day (t, a) =
      (filteredDelta T P day z t a).map (fun v => v / (day : ℚ)) := by
  unfold fwdVal
  cases h : filteredDelta T P day z t a with
  | none =>
    rw [List.find?_eq_none.mpr]
    · rfl
    · intro e he
      simp only [beq_iff_eq]
      intro hk
      have hmem := mem_stackDelta.mp he
      rw [hk] at hmem
      rw [h] at hmem
      exact Option.noConfusion hmem.2.2
  | some v =>
    have hmem : ((t, a), v) ∈ stackDelta T N P day z :=
      mem_stackDelta.mpr ⟨ht, ha, h⟩
    have hsome : (List.find? (fun e => e.1 == (t, a)) (stackDelta T N P day z)).isSome := by
      rw [List.find?_isSome]
      exact ⟨((t, a), v), hmem, by simp⟩
    obtain ⟨e, he⟩ := Option.isSome_iff_exists.mp hsome
    have hpe : e.1 = (t, a) := by
      have := List.find?_some he
      simpa using this
    have hme := List.mem_of_find?_eq_some he
    have := mem_stackDelta.mp hme
    rw [hpe] at this
    rw [h] at this
    have hev : e.2 = v := (Option.some.inj this.2.2).symm
    rw [he]
    simp [hev]

theorem ffill_exP (a t : Nat) : ffill exP a t = some (exp0 t a) :=
  ffill_total exp0 a t

theorem exP_raw00 : rawDelta 4 exP 1 0 0 = some 1 := by
  norm_num [rawDelta, ffill_exP, exp0]

theorem exP_raw10 : rawDelta 4 exP 1 1 0 = some 1 := by
  norm_num [rawDelta, ffill_exP, exp0]

theorem exP_raw20 : rawDelta 4 exP 1 2 0 = some 1 := by
  norm_num [rawDelta, ffill_exP, exp0]

theorem exP_raw30 : rawDelta 4 exP 1 3 0 = none := by
  norm_num [rawDelta]

theorem exP_colVals0 : colVals 4 exP 1 0 = [1, 1, 1] := by
  unfold colVals
  rw [show List.range 4 = [0, 1, 2, 3] from rfl]
  simp only [List.filterMap_cons, List.filterMap_nil, exP_raw00, exP_raw10,
    exP_raw20, exP_raw30]

theorem exP_fwd00 : fwdVal 4 2 exP none 1 (0, 0) = some 1 := by
  rw [fwdVal_eq 4 2 exP none 1 0 0 (by decide) (by decide)]
  norm_num [filteredDelta, exP_raw00]

theorem exP_fwd01 : fwdVal 4 2 exP none 1 (0, 1) = some 0 := by
  rw [fwdVal_eq 4 2 exP none 1 0 1 (by decide) (by decide)]
  norm_num [filteredDelta, rawDelta, ffill_exP, exp0]

theorem exP_fwd30 : fwdVal 4 2 exP none 1 (3, 0) = none := by
  rw [fwdVal_eq 4 2 exP none 1 3 0 (by decide) (by decide)]
  norm_num [filteredDelta, rawDelta]

theorem exClean_eval :
    get_clean_factor_and_forward_returns 4 2 exP exFactor none [1] none none =
      .ok exCleanRows := by
  show Except.ok ((mergeFactorFwd 4 2 exP none [1] exFactor).filter rowComplete)
    = Except.ok exCleanRows
  rw [show mergeFactorFwd 4 2 exP none [1] exFactor =
    [{ date := 0, asset := 0, sector := none, factor := some 5,
        fwd := [fwdVal 4 2 exP none 1 (0, 0)] },
      { date := 0, asset := 1, sector := none, factor := some 7,
        fwd := [fwdVal 4 2 exP none 1 (0, 1)] },
      { date := 3, asset := 0, sector := none, factor := some 9,
        fwd := [fwdVal 4 2 exP none 1 (3, 0)] }] from rfl]
  rw [exP_fwd00, exP_fwd01, exP_fwd30]
  rfl

/-- C1: on a price table with no missing values the forward-return cell
at (t, asset) for holding period `day` is the percent change of the
price from date t to date t + day, divided by `day`. -/
theorem forward_return_is_scaled_pct_change (T N : Nat) (p : Nat → Nat → ℚ)
    (days : List Nat) (day t a : Nat) (hd : day ∈ days) (hd1 : 1 ≤ day)
    (ht : t + day < T) (ha : a < N) (hp : p t a ≠ 0) :
    (compute_forward_returns T N (fun i j => some (p i j)) days none).val day (t, a)
      = some ((p (t + day) a - p t a) / p t a / day) := by
  have ht' : t < T := lt_of_le_of_lt (Nat.le_add_right t day) ht
  show fwdVal T N (fun i j => some (p i j)) none day (t, a) = _
  rw [fwdVal_eq T N _ none day t a ht' ha]
  simp only [filteredDelta, rawDelta, if_pos ht, ffill_total]
  have : p (t + day) a / p t a - 1 = (p (t + day) a - p t a) / p t a := by
    field_simp
  simp [this]

/-- C4: the forward-return column of holding period `day` is missing at
every row whose date lies among the last `day` dates of the price
table, whatever the price values. -/
theorem forward_return_null_on_last_dates (T N : Nat) (P : Price)
    (days : List Nat) (z : Option ℚ) (day t a : Nat) (hd : day ∈ days)
    (hlast : T ≤ t + day) (ht : t < T) (ha : a < N) :
    (compute_forward_returns T N P days z).val day (t, a) = none := by
  show fwdVal T N P z day (t, a) = none
  rw [fwdVal_eq T N P z day t a ht ha]
  simp [filteredDelta, rawDelta, Nat.not_lt.mpr hlast]

/-- C10: the index of the table returned by `compute_forward_returns`
is exactly the cartesian product of the date positions and the asset
positions, its levels are named date and asset, and membership of a
row in the index does not depend on any cell being present. -/
theorem forward_returns_index_is_product (T N : Nat) (P : Price)
    (days : List Nat) (z : Option ℚ) (hdays : days ≠ []) (t a : Nat) :
    ((t, a) ∈ (compute_forward_returns T N P days z).index ↔ t < T ∧ a < N) ∧
    (compute_forward_returns T N P days z).names = ["date", "asset"] := by
  refine ⟨?_, rfl⟩
  show (t, a) ∈ productIndex T N ↔ t < T ∧ a < N
  simp only [productIndex, List.mem_flatMap, List.mem_map, List.mem_range,
    Prod.mk.injEq]
  constructor
  · rintro ⟨t', ht', a', ha', h1, h2⟩
    subst h1; subst h2
    exact ⟨ht', ha'⟩
  · rintro ⟨ht, ha⟩
    exact ⟨t, ht, a, ha, rfl, rfl⟩

theorem groupVals_map_demeanRow (rows : List (RKey × (Nat → Option ℚ)))
    (b : Bool) (g : Nat × Option Nat) (day : Nat)
    (l : List (RKey × (Nat → Option ℚ))) :
    ((l.map (demeanRow rows b)).filter (fun p => groupKey b p.1 == g)).filterMap
        (fun p => p.2 day) =
      ((l.filter (fun p => groupKey b p.1 == g)).filterMap (fun p => p.2 day)).map
        (fun v => v - groupMean rows b g day) := by
  induction l with
  | nil => rfl
  | cons p l ih =>
    simp only [List.map_cons]
    by_cases h : groupKey b p.1 = g
    · rw [List.filter_cons_of_pos (by simp [demeanRow, h]),
        List.filter_cons_of_pos (by simp [h])]
      simp only [List.filterMap_cons]
      cases hpd : p.2 day with
      | none => simpa [demeanRow, hpd] using ih
      | some v =>
        simp only [demeanRow, hpd, Option.map_some', h]
        rw [ih]
        simp
    · rw [List.filter_cons_of_neg (by simp [demeanRow, h]),
        List.filter_cons_of_neg (by simp [h])]
      exact ih

theorem groupVals_demean (rows : List (RKey × (Nat → Option ℚ))) (b : Bool)
    (g : Nat × Option Nat) (day : Nat) :
    groupVals (demean_forward_returns rows b) b g day =
      (groupVals rows b g day).map (fun v => v - groupMean rows b g day) := by
  unfold groupVals demean_forward_returns
  exact groupVals_map_demeanRow rows b g day rows

theorem sum_map_sub_const (l : List ℚ) (m : ℚ) :
    (l.map (fun v => v - m)).sum = l.sum - l.length * m := by
  induction l with
  | nil => simp
  | cons x l ih =>
    simp only [List.map_cons, List.sum_cons, ih, List.length_cons]
    push_cast
    ring

/-- C5: demeaning without sector grouping makes the per-date mean of
each holding-period column exactly zero over the rational numbers, for
every date that has at least one defined entry in that column. -/
theorem demeaned_returns_mean_zero (rows : List (RKey × (Nat → Option ℚ)))
    (t day : Nat) (hne : groupVals rows false (t, none) day ≠ []) :
    (groupVals (demean_forward_returns rows false) false (t, none) day).sum = 0 ∧
    groupMean (demean_forward_returns rows false) false (t, none) day = 0 := by
  have h0 : (groupVals rows false (t, none) day).length ≠ 0 := by
    intro hl
    exact hne (List.length_eq_zero.mp hl)
  have hn : ((groupVals rows false (t, none) day).length : ℚ) ≠ 0 := by
    exact_mod_cast h0
  have hsum :
      (groupVals (demean_forward_returns rows false) false (t, none) day).sum = 0 := by
    rw [groupVals_demean, sum_map_sub_const]
    unfold groupMean
    rw [mul_div_cancel₀ _ hn]
    ring
  refine ⟨hsum, ?_⟩
  unfold groupMean
  rw [hsum, zero_div]

theorem colVar_nonneg (T : Nat) (P : Price) (day a : Nat)
    (hn : 2 ≤ (colVals T P day a).length) :
    0 ≤ colVar T P day a := by
  unfold colVar
  apply div_nonneg
  · apply List.sum_nonneg
    intro x hx
    obtain ⟨y, _, rfl⟩ := List.mem_map.mp hx
    positivity
  · have h2 : (2 : ℚ) ≤ ((colVals T P day a).length : ℚ) := by exact_mod_cast hn
    linarith

/-- C7: with a nonnegative z-score threshold, a defined shifted
percent-change entry is nulled exactly when its absolute deviation from
the NaN-skipping column mean exceeds the threshold times the column
standard deviation (square root of the sample variance), both computed
over the full sample; otherwise the cell holds the entry divided by the
holding period, unchanged by the filter. -/
theorem zscore_filter_nulls_outliers (T N : Nat) (P : Price) (days : List Nat)
    (zv : ℚ) (day t a : Nat) (v : ℚ) (hz : 0 ≤ zv) (hd : day ∈ days)
    (ht : t < T) (ha : a < N) (hraw : rawDelta T P day t a = some v)
    (hn : 2 ≤ (colVals T P day a).length) :
    (compute_forward_returns T N P days (some zv)).val day (t, a) =
      if (zv : ℝ) * Real.sqrt (colVar T P day a) <
          |(v : ℝ) - ((colMean T P day a : ℚ) : ℝ)| then none
      else some (v / day) := by
  show fwdVal T N P (some zv) day (t, a) = _
  rw [fwdVal_eq T N P (some zv) day t a ht ha]
  have hn1 : ¬ (colVals T P day a).length ≤ 1 := by omega
  have hvar : 0 ≤ colVar T P day a := colVar_nonneg T P day a hn
  have hiff : (zv ^ 2 * colVar T P day a < (v - colMean T P day a) ^ 2) ↔
      ((zv : ℝ) * Real.sqrt (colVar T P day a) <
        |(v : ℝ) - ((colMean T P day a : ℚ) : ℝ)|) := by
    have hcast : (zv ^ 2 * colVar T P day a < (v - colMean T P day a) ^ 2) ↔
        (((zv : ℝ)) ^ 2 * ((colVar T P day a : ℚ) : ℝ) <
          ((v : ℝ) - ((colMean T P day a : ℚ) : ℝ)) ^ 2) := by
      rw [← Rat.cast_lt (K := ℝ)]
      push_cast
      rfl
    rw [hcast]
    have h1 : (0 : ℝ) ≤ (zv : ℝ) * Real.sqrt ((colVar T P day a : ℚ) : ℝ) := by
      apply mul_nonneg
      · exact_mod_cast hz
      · exact Real.sqrt_nonneg _
    have h2 : (0 : ℝ) ≤ |(v : ℝ) - ((colMean T P day a : ℚ) : ℝ)| := abs_nonneg _
    rw [← pow_lt_pow_iff_left₀ h1 h2 (two_ne_zero)]
    rw [mul_pow, Real.sq_sqrt (by exact_mod_cast hvar), sq_abs]
  simp only [filteredDelta, hraw, if_neg hn1]
  rw [if_congr hiff rfl rfl]
  by_cases hc : (zv : ℝ) * Real.sqrt (colVar T P day a) <
      |(v : ℝ) - ((colMean T P day a : ℚ) : ℝ)|
  · rw [if_pos hc, if_pos hc, Option.map_none']
  · rw [if_neg hc, if_neg hc, Option.map_some']

theorem mem_mergeFactorFwd {T N : Nat} {P : Price} {z : Option ℚ}
    {days : List Nat} {factor : List ((Nat × Nat) × Option ℚ)} {r : Row}
    (hr : r ∈ mergeFactorFwd T N P z days factor) :
    ((r.date, r.asset), r.factor) ∈ factor := by
  obtain ⟨p, hp, rfl⟩ := List.mem_map.mp hr
  simpa using hp

theorem mem_mergeSectors {merged : List Row} {ser : List ((Nat × Nat) × Nat)}
    {days : List Nat} {r : Row} (hr : r ∈ mergeSectors merged ser days)
    (hf : r.factor ≠ none) :
    ∃ r0 ∈ merged, r.date = r0.date ∧ r.asset = r0.asset ∧ r.factor = r0.factor := by
  obtain ⟨q, hq, rfl⟩ := List.mem_map.mp hr
  cases hfind : merged.find? (fun r' => (r'.date, r'.asset) == q.1) with
  | none =>
    simp only [hfind] at hf
    exact absurd rfl hf
  | some r0 =>
    exact ⟨r0, List.mem_of_find?_eq_some hfind, by simp [hfind], by simp [hfind],
      by simp [hfind]⟩

theorem clean_ok_cases {T N : Nat} {P : Price}
    {factor : List ((Nat × Nat) × Option ℚ)} {sectors : Option Sectors}
    {days : List Nat} {z : Option ℚ} {sector_names : Option (List (Nat × Nat))}
    {rows : List Row}
    (hok : get_clean_factor_and_forward_returns T N P factor sectors days z
        sector_names = .ok rows) :
    rows = (mergeFactorFwd T N P z days factor).filter rowComplete ∨
    ∃ ser2, rows = (mergeSectors (mergeFactorFwd T N P z days factor)
        ser2 days).filter rowComplete := by
  unfold get_clean_factor_and_forward_returns at hok
  split at hok
  · exact Or.inl (Except.ok.inj hok).symm
  · split at hok
    · exact absurd hok (by simp)
    · split at hok
      · exact absurd hok (by simp)
      · exact Or.inr ⟨_, (Except.ok.inj hok).symm⟩

theorem rowComplete_spec {r : Row} (h : rowComplete r = true) :
    r.factor ≠ none ∧ ∀ c ∈ r.fwd, c ≠ none := by
  unfold rowComplete at h
  rw [Bool.and_eq_true] at h
  obtain ⟨h1, h2⟩ := h
  refine ⟨?_, ?_⟩
  · intro hn
    rw [hn] at h1
    exact Bool.noConfusion h1
  · intro c hc hn
    have hcc := List.all_eq_true.mp h2 c hc
    rw [hn] at hcc
    exact Bool.noConfusion hcc

theorem clean_row_origin {T N : Nat} {P : Price}
    {factor : List ((Nat × Nat) × Option ℚ)} {sectors : Option Sectors}
    {days : List Nat} {z : Option ℚ} {sector_names : Option (List (Nat × Nat))}
    {rows : List Row} {r : Row}
    (hok : get_clean_factor_and_forward_returns T N P factor sectors days z
        sector_names = .ok rows) (hr : r ∈ rows) :
    (r.factor ≠ none ∧ ∀ c ∈ r.fwd, c ≠ none) ∧
      ((r.date, r.asset), r.factor) ∈ factor := by
  rcases clean_ok_cases hok with hrows | ⟨ser2, hrows⟩ <;> subst hrows
  · obtain ⟨hmem, hcomp⟩ := List.mem_filter.mp hr
    exact ⟨rowComplete_spec hcomp, mem_mergeFactorFwd hmem⟩
  · obtain ⟨hmem, hcomp⟩ := List.mem_filter.mp hr
    obtain ⟨hfac, hfwd⟩ := rowComplete_spec hcomp
    obtain ⟨r0, hr0, hdd, haa, hff⟩ := mem_mergeSectors hmem hfac
    have hof := mem_mergeFactorFwd hr0
    refine ⟨⟨hfac, hfwd⟩, ?_⟩
    rw [hdd, haa, hff]
    exact hof

/-- C2: every row of a successful result of
`get_clean_factor_and_forward_returns` has a present factor cell and
only present forward-returns cells, and its (date, asset) pair comes
from the index of the input factor. -/
theorem clean_output_complete_and_subset (T N : Nat) (P : Price)
    (factor : List ((Nat × Nat) × Option ℚ)) (sectors : Option Sectors)
    (days : List Nat) (z : Option ℚ) (sector_names : Option (List (Nat × Nat)))
    (rows : List Row) (r : Row)
    (hok : get_clean_factor_and_forward_returns T N P factor sectors days z
        sector_names = .ok rows) (hr : r ∈ rows) :
    r.factor ≠ none ∧ (∀ c ∈ r.fwd, c ≠ none) ∧
      (r.date, r.asset) ∈ factor.map Prod.fst := by
  obtain ⟨⟨hfac, hfwd⟩, horig⟩ := clean_row_origin hok hr
  exact ⟨hfac, hfwd, List.mem_map.mpr ⟨_, horig, rfl⟩⟩

/-- C6: on every successful run the clean factor column agrees with the
original input factor on every surviving row: the value popped back out
is the value the input factor holds at that (date, asset) pair. -/
theorem clean_factor_roundtrip (T N : Nat) (P : Price)
    (factor : List ((Nat × Nat) × Option ℚ)) (sectors : Option Sectors)
    (days : List Nat) (z : Option ℚ) (sector_names : Option (List (Nat × Nat)))
    (rows : List Row) (r : Row)
    (hok : get_clean_factor_and_forward_returns T N P factor sectors days z
        sector_names = .ok rows) (hr : r ∈ rows) :
    ∃ v, r.factor = some v ∧ ((r.date, r.asset), some v) ∈ factor := by
  obtain ⟨⟨hfac, _⟩, horig⟩ := clean_row_origin hok hr
  obtain ⟨v, hv⟩ := Option.ne_none_iff_exists'.mp hfac
  refine ⟨v, hv, ?_⟩
  rw [hv] at horig
  exact horig

/-- C3 counterexample: asset coverage is validated only for a static
dict. On a concrete time-varying sector series that does not cover an
asset present in the factor index, `get_clean_factor_and_forward_returns`
raises no key-error at all: it succeeds, and the rows of the uncovered
asset are silently dropped by the left merge with the series. -/
theorem series_missing_asset_no_error_counterexample :
    ((1 : Nat) ∈ factorAssets exFactor ∧ ∀ q ∈ exSerMissing, q.1.2 ≠ 1) ∧
    get_clean_factor_and_forward_returns 4 2 exP exFactor
        (some (Sectors.series exSerMissing)) [1] none none = .ok exSerRows ∧
    ∀ e : CleanErr,
      get_clean_factor_and_forward_returns 4 2 exP exFactor
          (some (Sectors.series exSerMissing)) [1] none none ≠
        Except.error e := by
  have hok : get_clean_factor_and_forward_returns 4 2 exP exFactor
      (some (Sectors.series exSerMissing)) [1] none none = .ok exSerRows := by
    show Except.ok ((mergeSectors (mergeFactorFwd 4 2 exP none [1] exFactor)
        exSerMissing [1]).filter rowComplete) = Except.ok exSerRows
    rw [show mergeSectors (mergeFactorFwd 4 2 exP none [1] exFactor)
        exSerMissing [1] =
      [{ date := 0, asset := 0, sector := some 10, factor := some 5,
          fwd := [fwdVal 4 2 exP none 1 (0, 0)] }] from rfl]
    rw [exP_fwd00]
    rfl
  refine ⟨⟨by decide, by decide⟩, hok, ?_⟩
  intro e h
  rw [hok] at h
  exact Except.noConfusion h

/-- C3 amended: a static sector dict that misses an asset present in
the factor index makes `get_clean_factor_and_forward_returns` raise the
KeyError carrying the list of uncovered assets, the offending asset
among them (a time-varying sector series is not validated). -/
theorem missing_asset_raises_keyerror (T N : Nat) (P : Price)
    (factor : List ((Nat × Nat) × Option ℚ)) (m : List (Nat × Nat))
    (days : List Nat) (z : Option ℚ) (sector_names : Option (List (Nat × Nat)))
    (a : Nat) (ha : a ∈ factorAssets factor) (hm : a ∉ dictKeys m) :
    get_clean_factor_and_forward_returns T N P factor (some (.dict m)) days z
        sector_names =
      .error (.assetsNotInSectorMapping (missingAssets factor m)) ∧
    a ∈ missingAssets factor m := by
  have hmem : a ∈ missingAssets factor m := by
    unfold missingAssets
    rw [List.mem_dedup, List.mem_filter]
    exact ⟨ha, by simpa using hm⟩
  have hne : missingAssets factor m ≠ [] := List.ne_nil_of_mem hmem
  refine ⟨?_, hmem⟩
  have hrs : resolveSectors factor (Sectors.dict m) =
      .error (.assetsNotInSectorMapping (missingAssets factor m)) := by
    simp only [resolveSectors]
    rw [if_neg hne]
  simp only [get_clean_factor_and_forward_returns, hrs]

/-- C8: a sector-name mapping that misses a sector code produced by the
(validated) sector mapping makes `get_clean_factor_and_forward_returns`
raise the KeyError carrying the list of uncovered codes, the offending
code among them. -/
theorem missing_sector_name_raises_keyerror (T N : Nat) (P : Price)
    (factor : List ((Nat × Nat) × Option ℚ)) (s : Sectors)
    (ser : List ((Nat × Nat) × Nat)) (days : List Nat) (z : Option ℚ)
    (ns : List (Nat × Nat)) (c : Nat)
    (hres : resolveSectors factor s = .ok ser) (hc : c ∈ sectorValues ser)
    (hns : c ∉ dictKeys ns) :
    get_clean_factor_and_forward_returns T N P factor (some s) days z (some ns) =
      .error (.sectorsNotInSectorNames (missingSectorCodes ser ns)) ∧
    c ∈ missingSectorCodes ser ns := by
  have hmem : c ∈ missingSectorCodes ser ns := by
    unfold missingSectorCodes
    rw [List.mem_dedup, List.mem_filter]
    exact ⟨hc, by simpa using hns⟩
  have hne : missingSectorCodes ser ns ≠ [] := List.ne_nil_of_mem hmem
  refine ⟨?_, hmem⟩
  have hrn : resolveNames factor ser (some ns) =
      .error (.sectorsNotInSectorNames (missingSectorCodes ser ns)) := by
    simp only [resolveNames]
    rw [if_neg hne]
  simp only [get_clean_factor_and_forward_returns, hres, hrn]

/-- C9 counterexample: on a concrete input whose sector dict misses an
asset, `get_clean_factor_and_forward_returns` does raise the validation
KeyError, yet the factor/forward-returns merge event precedes the raise
in the event trace, so the failure is not raised before any merge; and
the factor metadata is overwritten in place, so the input factor object
does not stay unchanged. -/
theorem clean_not_pure_counterexample :
    get_clean_factor_and_forward_returns 4 2 exP exFactor
        (some (Sectors.dict exDict)) [1] none none =
      Except.error (CleanErr.assetsNotInSectorMapping [1]) ∧
    ¬ (∀ i j : Nat,
        (cleanEvents exFactor (some (Sectors.dict exDict)) none)[i]? =
            some Ev.raiseAssets →
        (cleanEvents exFactor (some (Sectors.dict exDict)) none)[j]? =
            some Ev.mergeFactorFwdEv →
        i < j) ∧
    factorMetaAfterClean { name := none, indexNames := none } ≠
      { name := none, indexNames := none } := by
  refine ⟨rfl, ?_, by decide⟩
  intro h
  exact absurd (h 3 2 (by decide) (by decide)) (by decide)

/-- C9 amended: the transforms build new outputs and leave the price
data and the factor and sector values untouched, but
`get_clean_factor_and_forward_returns` overwrites the metadata of its
input factor object in place, and each of its two validation KeyErrors
is raised only after the factor/forward-returns merge has been
performed (the sector merge never precedes a raise). -/
theorem clean_mutates_metadata_and_merges_before_validation (T N : Nat)
    (P : Price) (factor : List ((Nat × Nat) × Option ℚ))
    (sectors : Option Sectors) (days : List Nat) (z : Option ℚ)
    (sector_names : Option (List (Nat × Nat))) (m0 : SeriesMeta) (l : List Nat)
    (herr : get_clean_factor_and_forward_returns T N P factor sectors days z
          sector_names = .error (.assetsNotInSectorMapping l) ∨
        get_clean_factor_and_forward_returns T N P factor sectors days z
          sector_names = .error (.sectorsNotInSectorNames l)) :
    factorMetaAfterClean m0 =
      { name := some "factor", indexNames := some ["date", "asset"] } ∧
    ∃ rest,
      cleanEvents factor sectors sector_names =
        [Ev.setFactorMeta, Ev.computeFwd, Ev.mergeFactorFwdEv] ++ rest ∧
      (Ev.raiseAssets ∈ rest ∨ Ev.raiseSectorNames ∈ rest) ∧
      Ev.mergeSectorsEv ∉ rest := by
  refine ⟨rfl, ?_⟩
  cases sectors with
  | none =>
    exfalso
    rcases herr with h | h <;>
      simp [get_clean_factor_and_forward_returns] at h
  | some s =>
    cases s with
    | dict m =>
      by_cases hma : missingAssets factor m = []
      · cases sector_names with
        | none =>
          exfalso
          rcases herr with h | h <;>
            simp [get_clean_factor_and_forward_returns, resolveSectors,
              resolveNames, hma] at h
        | some ns =>
          by_cases hmc : missingSectorCodes (broadcastDict factor m) ns = []
          · exfalso
            have hlen : factor.length = (broadcastDict factor m).length := by
              unfold broadcastDict
              rw [List.length_map]
            rcases herr with h | h <;>
              simp [get_clean_factor_and_forward_returns, resolveSectors,
                resolveNames, hma, hmc, hlen] at h
          · refine ⟨[Ev.broadcastDictEv, Ev.raiseSectorNames], ?_,
              Or.inr (by decide), by decide⟩
            simp [cleanEvents, namesEvents, hma, hmc]
      · refine ⟨[Ev.raiseAssets], ?_, Or.inl (by decide), by decide⟩
        simp [cleanEvents, hma]
    | series ser =>
      cases sector_names with
      | none =>
        exfalso
        rcases herr with h | h <;>
          simp [get_clean_factor_and_forward_returns, resolveSectors,
            resolveNames] at h
      | some ns =>
        by_cases hmc : missingSectorCodes ser ns = []
        · exfalso
          by_cases hlen : factor.length = ser.length <;>
            rcases herr with h | h <;>
              simp [get_clean_factor_and_forward_returns, resolveSectors,
                resolveNames, hmc, hlen] at h
        · refine ⟨[Ev.raiseSectorNames], ?_, Or.inr (by decide), by decide⟩
          simp [cleanEvents, namesEvents, hmc]

theorem forward_return_is_scaled_pct_change_witness :
    ((1 : Nat) ∈ [1] ∧ 1 ≤ 1 ∧ 0 + 1 < 4 ∧ 0 < 2 ∧ exp0 0 0 ≠ 0) ∧
    (compute_forward_returns 4 2 (fun i j => some (exp0 i j)) [1] none).val 1 (0, 0)
      = some ((exp0 (0 + 1) 0 - exp0 0 0) / exp0 0 0 / ((1 : Nat) : ℚ)) :=
  ⟨⟨by decide, by decide, by decide, by decide, by decide⟩,
    forward_return_is_scaled_pct_change 4 2 exp0 [1] 1 0 0 (by decide) (by decide)
      (by decide) (by decide) (by decide)⟩

theorem forward_return_null_on_last_dates_witness :
    ((1 : Nat) ∈ [1] ∧ 4 ≤ 3 + 1 ∧ 3 < 4 ∧ 0 < 2) ∧
    (compute_forward_returns 4 2 exP [1] none).val 1 (3, 0) = none :=
  ⟨⟨by decide, by decide, by decide, by decide⟩,
    forward_return_null_on_last_dates 4 2 exP [1] none 1 3 0 (by decide)
      (by decide) (by decide) (by decide)⟩

theorem forward_returns_index_is_product_witness :
    ([1] ≠ ([] : List Nat)) ∧
    (((0, 0) ∈ (compute_forward_returns 4 2 exP [1] none).index ↔ 0 < 4 ∧ 0 < 2) ∧
      (compute_forward_returns 4 2 exP [1] none).names = ["date", "asset"]) :=
  ⟨by decide, forward_returns_index_is_product 4 2 exP [1] none (by decide) 0 0⟩

theorem zscore_filter_nulls_outliers_witness :
    ((0 : ℚ) ≤ 1 ∧ (1 : Nat) ∈ [1] ∧ 0 < 4 ∧ 0 < 2 ∧
      rawDelta 4 exP 1 0 0 = some 1 ∧ 2 ≤ (colVals 4 exP 1 0).length) ∧
    (compute_forward_returns 4 2 exP [1] (some 1)).val 1 (0, 0) =
      (if ((1 : ℚ) : ℝ) * Real.sqrt (colVar 4 exP 1 0) <
          |((1 : ℚ) : ℝ) - ((colMean 4 exP 1 0 : ℚ) : ℝ)| then none
        else some (1 / ((1 : Nat) : ℚ))) :=
  ⟨⟨by decide, by decide, by decide, by decide, exP_raw00,
      by rw [exP_colVals0]; decide⟩,
    zscore_filter_nulls_outliers 4 2 exP [1] 1 1 0 0 1 (by decide) (by decide)
      (by decide) (by decide) exP_raw00 (by rw [exP_colVals0]; decide)⟩

theorem demeaned_returns_mean_zero_witness :
    (groupVals exRows false (0, none) 1 ≠ []) ∧
    ((groupVals (demean_forward_returns exRows false) false (0, none) 1).sum = 0 ∧
      groupMean (demean_forward_returns exRows false) false (0, none) 1 = 0) :=
  ⟨by decide, demeaned_returns_mean_zero exRows 0 1 (by decide)⟩

theorem clean_output_complete_and_subset_witness :
    (get_clean_factor_and_forward_returns 4 2 exP exFactor none [1] none none =
        .ok exCleanRows ∧ exCleanRow ∈ exCleanRows) ∧
    (exCleanRow.factor ≠ none ∧ (∀ c ∈ exCleanRow.fwd, c ≠ none) ∧
      (exCleanRow.date, exCleanRow.asset) ∈ exFactor.map Prod.fst) :=
  ⟨⟨exClean_eval, by decide⟩,
    clean_output_complete_and_subset 4 2 exP exFactor none [1] none none
      exCleanRows exCleanRow exClean_eval (by decide)⟩

theorem clean_factor_roundtrip_witness :
    (get_clean_factor_and_forward_returns 4 2 exP exFactor none [1] none none =
        .ok exCleanRows ∧ exCleanRow ∈ exCleanRows) ∧
    (∃ v, exCleanRow.factor = some v ∧
      ((exCleanRow.date, exCleanRow.asset), some v) ∈ exFactor) :=
  ⟨⟨exClean_eval, by decide⟩,
    clean_factor_roundtrip 4 2 exP exFactor none [1] none none
      exCleanRows exCleanRow exClean_eval (by decide)⟩

theorem missing_asset_raises_keyerror_witness :
    ((1 : Nat) ∈ factorAssets exFactor ∧ (1 : Nat) ∉ dictKeys exDict) ∧
    (get_clean_factor_and_forward_returns 4 2 exP exFactor
        (some (.dict exDict)) [1] none none =
      .error (.assetsNotInSectorMapping (missingAssets exFactor exDict)) ∧
      1 ∈ missingAssets exFactor exDict) :=
  ⟨⟨by decide, by decide⟩,
    missing_asset_raises_keyerror 4 2 exP exFactor exDict [1] none none 1
      (by decide) (by decide)⟩

theorem missing_sector_name_raises_keyerror_witness :
    (resolveSectors exFactor (.dict exDict2) = .ok exSer ∧
      (20 : Nat) ∈ sectorValues exSer ∧ (20 : Nat) ∉ dictKeys exNames) ∧
    (get_clean_factor_and_forward_returns 4 2 exP exFactor
        (some (.dict exDict2)) [1] none (some exNames) =
      .error (.sectorsNotInSectorNames (missingSectorCodes exSer exNames)) ∧
      20 ∈ missingSectorCodes exSer exNames) :=
  ⟨⟨rfl, by decide, by decide⟩,
    missing_sector_name_raises_keyerror 4 2 exP exFactor (.dict exDict2) exSer
      [1] none exNames 20 rfl (by decide) (by decide)⟩

theorem clean_mutates_metadata_and_merges_before_validation_witness :
    (get_clean_factor_and_forward_returns 4 2 exP exFactor
          (some (Sectors.dict exDict)) [1] none none =
        .error (.assetsNotInSectorMapping [1]) ∨
      get_clean_factor_and_forward_returns 4 2 exP exFactor
          (some (Sectors.dict exDict)) [1] none none =
        .error (.sectorsNotInSectorNames [1])) ∧
    (factorMetaAfterClean { name := none, indexNames := none } =
        { name := some "factor", indexNames := some ["date", "asset"] } ∧
      ∃ rest,
        cleanEvents exFactor (some (Sectors.dict exDict)) none =
          [Ev.setFactorMeta, Ev.computeFwd, Ev.mergeFactorFwdEv] ++ rest ∧
        (Ev.raiseAssets ∈ rest ∨ Ev.raiseSectorNames ∈ rest) ∧
        Ev.mergeSectorsEv ∉ rest) :=
  ⟨Or.inl rfl,
    clean_mutates_metadata_and_merges_before_validation 4 2 exP exFactor
      (some (Sectors.dict exDict)) [1] none none
      { name := none, indexNames := none } [1] (Or.inl rfl)⟩

end Alphalens
